import Mathlib

/-!
Verification development for the Instasights repository (src/app.py,
src/push_data.py, src/init_db.py): a shallow embedding in Lean 4 of the
batched ingestion pipeline, the `/analyze` and `/post_types` HTTP handlers,
and the optional vector-store similarity search, together with theorems
settling the specification's claims about them.
-/

set_option maxRecDepth 40000

namespace Instasights

/-! ## Batched ingestion (app.py `insert_data` and push_data.py `insert_data`)

Both scripts iterate the loaded rows with `data.iterrows()` (indices 0,1,2,…)
and flush the accumulated batch whenever `(index + 1) % 100 == 0`.

The embedding keeps, for either script, the running record index (`idx`, the
number of rows consumed so far), the pending batch, and the list of batch
contents passed to the store so far (`subs`: one entry per `session.execute`
call in app.py, respectively per `_flush_to_vector_store` call in
push_data.py), in submission order.  Record contents are irrelevant to the
batching logic, so the state is polymorphic in the record type. -/

structure IngestState (α : Type) where
  idx : Nat
  batch : List α
  subs : List (List α)
deriving Repr

/-- One loop iteration of app.py `insert_data` (lines 94-112).  The record is
added to the batch; at a boundary (`(index + 1) % 100 == 0`) the batch is
passed to `session.execute`.  `f k = true` means the `k`-th `session.execute`
call raises; `batch.clear()` runs only on success (it sits after the execute
inside the `try`), so on failure the batch keeps all its records. -/
def appStep (f : Nat → Bool) (st : IngestState α) (r : α) : IngestState α :=
  let b := st.batch ++ [r]
  if (st.idx + 1) % 100 = 0 then
    { idx := st.idx + 1
      batch := if f st.subs.length then b else []
      subs := st.subs ++ [b] }
  else
    { idx := st.idx + 1, batch := b, subs := st.subs }

/-- app.py `insert_data` (lines 93-119): run the loop, then execute the
remaining batch unconditionally (lines 114-119 run `session.execute(batch)`
whether or not the batch is empty).  Returns the store submissions in order. -/
def appIngest (f : Nat → Bool) (rs : List α) : List (List α) :=
  let st := rs.foldl (appStep f) ⟨0, [], []⟩
  st.subs ++ [st.batch]

/-- One loop iteration of push_data.py `insert_data` (lines 90-108).  At a
boundary the batch is flushed and `records_to_vectorize = []` resets the
batch; `_flush_to_vector_store` swallows its own exception internally, so the
reset happens whether or not the flush succeeded. -/
def pushStep (st : IngestState α) (r : α) : IngestState α :=
  let b := st.batch ++ [r]
  if (st.idx + 1) % 100 = 0 then
    { idx := st.idx + 1, batch := [], subs := st.subs ++ [b] }
  else
    { idx := st.idx + 1, batch := b, subs := st.subs }

/-- push_data.py `insert_data` (lines 82-112): run the loop, then flush the
remaining batch only if it is non-empty (`if records_to_vectorize:`). -/
def pushIngest (rs : List α) : List (List α) :=
  let st := rs.foldl pushStep ⟨0, [], []⟩
  if st.batch.isEmpty then st.subs else st.subs ++ [st.batch]

/-! ## The `/analyze` and `/post_types` handlers (app.py `create_app`) -/

/-- One row of the `engagement` table as read back by the `/analyze` select
(likes, comments, shares, total_engagement).  Python integers are unbounded,
so the fields are `Int`. -/
structure Row where
  likes : Int
  comments : Int
  shares : Int
  total_engagement : Int
deriving DecidableEq, Repr

/-- The 200-response body of `/analyze`.  Python's `/` on ints is true
(real-valued) division; it is embedded as division in `ℚ`, which is exact
wherever the float result is (in particular on every claim instance). -/
structure AggregateResult where
  post_type : String
  avg_likes : Rat
  avg_comments : Rat
  avg_shares : Rat
  avg_total_engagement : Rat
deriving DecidableEq, Repr

/-- An HTTP response of the façade: 400 with `{"error": msg}`, 200 with an
aggregate body, 200 with a post-types body, or 500 with `{"error": msg}`. -/
inductive HttpResponse where
  | badRequest (error : String)
  | okAggregate (body : AggregateResult)
  | okPostTypes (post_types : List String)
  | serverError (error : String)
deriving DecidableEq, Repr

/-- The status code of a response. -/
def HttpResponse.status : HttpResponse → Nat
  | .badRequest _ => 400
  | .okAggregate _ => 200
  | .okPostTypes _ => 200
  | .serverError _ => 500

/-- Whether the JSON body of a response carries an `error` key. -/
def HttpResponse.hasErrorKey : HttpResponse → Bool
  | .badRequest _ => true
  | .okAggregate _ => false
  | .okPostTypes _ => false
  | .serverError _ => true

/-- The average of the expression
`sum(xs) / len(xs) if xs else 0` (app.py lines 149-152). -/
def avgOf (xs : List Int) : Rat :=
  if xs.isEmpty then 0 else (xs.sum : Rat) / (xs.length : Rat)

/-- One full `for row in rows` pass over a cassandra-driver `ResultSet`,
collecting `g row` for each yielded row.  The `ResultSet` returned by
`session.execute` is a one-shot iterator (driver >= 3.20, which
`Cluster(cloud=...)` requires): a pass yields exactly the rows remaining in
the iterator and leaves it exhausted.  The value is the collected list
together with the iterator's state after the pass. -/
def iterateRS (g : Row → Int) (it : List Row) : List Int × List Row :=
  (it.map g, [])

/-- app.py `analyze` (lines 130-157).  `request.args.get('post_type')` is
`none` when the parameter is missing; `if not post_type` rejects both `none`
and the empty string with a 400 before the `try` block.  Otherwise the
filtered read runs; `query` stands for `session.execute` on the prepared
select and either raises (`Except.error`) or returns a `ResultSet` holding
the matching rows.  The four list comprehensions (lines 142-145) each
iterate that same one-shot `ResultSet`, so the iterator state is threaded
through them in order: the `likes` pass drains it and the `comments`,
`shares` and `total_engagement` passes run over the exhausted iterator. -/
def analyze (post_type : Option String)
    (query : String → Except String (List Row)) : HttpResponse :=
  match post_type with
  | none => .badRequest "Please provide a 'post_type' parameter."
  | some pt =>
    if pt = "" then .badRequest "Please provide a 'post_type' parameter."
    else
      match query pt with
      | .error e => .serverError e
      | .ok result_set =>
        let (likes, rs1) := iterateRS Row.likes result_set
        let (comments, rs2) := iterateRS Row.comments rs1
        let (shares, rs3) := iterateRS Row.shares rs2
        let (total_engagement, _) := iterateRS Row.total_engagement rs3
        .okAggregate
          { post_type := pt
            avg_likes := avgOf likes
            avg_comments := avgOf comments
            avg_shares := avgOf shares
            avg_total_engagement := avgOf total_engagement }

/-- app.py `get_post_types` (lines 161-173).  `query` stands for the
`SELECT DISTINCT post_type` read, either raising or returning the rows'
post_type column; the handler applies `list(set(...))`.  Python's `set`
iterates in an unspecified order; the embedding fixes first-occurrence order
(`List.dedup` keeps, for each value, exactly one copy), which is faithful to
every multiplicity claim. -/
def get_post_types (query : Except String (List String)) : HttpResponse :=
  match query with
  | .error e => .serverError e
  | .ok rows => .okPostTypes rows.dedup

/-! ## push_data.py `analyze_post_type` (lines 123-142) -/

/-- One similarity-search hit with its stored metadata. -/
structure SimilarPost where
  id : String
  post_type : String
  likes : Int
  comments : Int
  shares : Int
  total_engagement : Int
deriving DecidableEq, Repr

/-- push_data.py `analyze_post_type`.  The module-level `vector_store` is
`none` when the vector backend is not configured; otherwise it carries the
`similarity_search` operation (which may raise).  The function returns the
log lines it emits at error level together with its Python return value,
which is always a list. -/
def analyze_post_type
    (vector_store : Option (String → Nat → Except String (List SimilarPost)))
    (post_type : String) (top_k : Nat) : List String × List SimilarPost :=
  match vector_store with
  | none => (["Vector store not initialized."], [])
  | some search =>
    match search post_type top_k with
    | .ok results => ([], results)
    | .error e => (["Error performing similarity search: " ++ e], [])

/-! ## Primary-key inserts with fresh UUIDs (app.py `insert_data`, C10)

The `engagement` table has `id uuid PRIMARY KEY` (app.py lines 60-67) and
every record is built with `uuid.uuid4()` (line 96).  A Cassandra `INSERT`
upserts by primary key: a row with the same id is overwritten, a new id is
appended.  `uuid.uuid4()` is modelled by an explicit supply of ids handed to
the run, one per record in order; "randomly generated" enters the theorems as
the hypothesis that the supplied ids are pairwise distinct and distinct from
every id already in the store. -/

/-- Cassandra `INSERT` into a primary-key table: overwrite the row with the
same key if present, otherwise append. -/
def upsert (store : List (Nat × Row)) (rec : Nat × Row) : List (Nat × Row) :=
  if store.any (fun p => p.1 = rec.1) then
    store.map (fun p => if p.1 = rec.1 then rec else p)
  else
    store ++ [rec]

/-- One run of app.py `insert_data` over `rows`, drawing the id of the k-th
record from `supply`, applied to an existing store (batching does not affect
the final store contents when every submission succeeds, so the inserts are
applied in record order). -/
def runIngest (store : List (Nat × Row)) (supply : List Nat)
    (rows : List Row) : List (Nat × Row) :=
  (supply.zip rows).foldl upsert store

/-! ## Invariants of the batching loop -/

/-- Running push_data's loop from a state whose pending batch has exactly
`idx % 100` records advances the index by the number of records consumed,
emits one 100-record submission per boundary crossed, and leaves
`(idx + n) % 100` records pending. -/
theorem pushStep_fold_spec (rs : List α) : ∀ (st : IngestState α),
    st.batch.length = st.idx % 100 →
    (rs.foldl pushStep st).idx = st.idx + rs.length
    ∧ (rs.foldl pushStep st).subs.map List.length
        = st.subs.map List.length
          ++ List.replicate ((st.idx + rs.length) / 100 - st.idx / 100) 100
    ∧ (rs.foldl pushStep st).batch.length = (st.idx + rs.length) % 100 := by
  induction rs with
  | nil =>
    intro st h
    refine ⟨by simp, by simp, by simpa using h⟩
  | cons a rs ih =>
    intro st h
    simp only [List.foldl_cons, List.length_cons]
    by_cases hb : (st.idx + 1) % 100 = 0
    · have hstep : pushStep st a
          = ⟨st.idx + 1, [], st.subs ++ [st.batch ++ [a]]⟩ := by
        simp [pushStep, hb]
      rw [hstep]
      obtain ⟨h0, h1, h2⟩ :=
        ih ⟨st.idx + 1, [], st.subs ++ [st.batch ++ [a]]⟩ (by simp [hb])
      refine ⟨by simp at h0 ⊢; omega, ?_, by simp at h2 ⊢; omega⟩
      rw [h1]
      simp only [List.map_append, List.map_cons, List.map_nil, List.length_append,
        List.length_cons, List.length_nil, List.append_assoc]
      have hlen : st.batch.length + (0 + 1) = 100 := by omega
      rw [hlen]
      have hK : (st.idx + 1 + rs.length) / 100 - (st.idx + 1) / 100 + 1
          = (st.idx + (rs.length + 1)) / 100 - st.idx / 100 := by omega
      rw [← hK, List.replicate_succ]
      rfl
    · have hstep : pushStep st a
          = ⟨st.idx + 1, st.batch ++ [a], st.subs⟩ := by
        simp [pushStep, hb]
      rw [hstep]
      obtain ⟨h0, h1, h2⟩ :=
        ih ⟨st.idx + 1, st.batch ++ [a], st.subs⟩ (by simp at h ⊢; omega)
      refine ⟨by simp at h0 ⊢; omega, ?_, by simp at h2 ⊢; omega⟩
      rw [h1]
      have hK : (st.idx + 1 + rs.length) / 100 - (st.idx + 1) / 100
          = (st.idx + (rs.length + 1)) / 100 - st.idx / 100 := by omega
      simp [hK]

/-- Sizes of the submissions of push_data's `insert_data`: one 100-record
batch per completed hundred, then the trailing partial batch only when one
is pending. -/
theorem pushIngest_sizes (rs : List α) :
    (pushIngest rs).map List.length
      = List.replicate (rs.length / 100) 100
        ++ (if rs.length % 100 = 0 then [] else [rs.length % 100]) := by
  obtain ⟨h0, h1, h2⟩ := pushStep_fold_spec rs ⟨0, [], []⟩ (by simp)
  simp only [List.map_nil, List.nil_append, Nat.zero_add, Nat.zero_div,
    Nat.sub_zero] at h1 h2
  unfold pushIngest
  by_cases hz : (rs.foldl pushStep ⟨0, [], []⟩).batch.isEmpty
  · have hmod : rs.length % 100 = 0 := by
      rw [List.isEmpty_iff] at hz
      rw [hz] at h2
      simpa using h2.symm
    simp [hz, h1, hmod]
  · have hmod : rs.length % 100 ≠ 0 := by
      intro hc
      rw [hc] at h2
      rw [List.isEmpty_iff] at hz
      exact hz (List.length_eq_zero.mp h2)
    simp [hz, List.map_append, h1, h2, hmod]

/-- With an all-success oracle, app.py's loop body coincides with
push_data's (the only difference is what happens on a failed execute). -/
theorem appStep_false_eq_pushStep :
    appStep (α := α) (fun _ => false) = pushStep := by
  funext st r
  simp [appStep, pushStep]

/-- Sizes of the submissions of app.py's `insert_data` when every execute
succeeds: one 100-record batch per completed hundred, then the final
unconditional execute of the remaining `n % 100` records — which is an
empty submission whenever 100 divides `n`. -/
theorem appIngest_sizes (rs : List α) :
    (appIngest (fun _ => false) rs).map List.length
      = List.replicate (rs.length / 100) 100 ++ [rs.length % 100] := by
  obtain ⟨h0, h1, h2⟩ := pushStep_fold_spec rs ⟨0, [], []⟩ (by simp)
  simp only [List.map_nil, List.nil_append, Nat.zero_add, Nat.zero_div,
    Nat.sub_zero] at h1 h2
  unfold appIngest
  rw [appStep_false_eq_pushStep]
  simp [List.map_append, h1, h2]

/-- Whatever the failure pattern, app.py's loop performs one `session.execute`
per boundary crossed: failures change the contents of later submissions (the
batch is not cleared) but never their number, because the batch length stays
congruent to the record index modulo 100. -/
theorem appStep_fold_count (f : Nat → Bool) (rs : List α) :
    ∀ (st : IngestState α),
    st.batch.length % 100 = st.idx % 100 →
    (rs.foldl (appStep f) st).idx = st.idx + rs.length
    ∧ (rs.foldl (appStep f) st).subs.length
        = st.subs.length + ((st.idx + rs.length) / 100 - st.idx / 100)
    ∧ (rs.foldl (appStep f) st).batch.length % 100
        = (st.idx + rs.length) % 100 := by
  induction rs with
  | nil =>
    intro st h
    refine ⟨by simp, by simp, by simpa using h⟩
  | cons a rs ih =>
    intro st h
    simp only [List.foldl_cons, List.length_cons]
    by_cases hb : (st.idx + 1) % 100 = 0
    · have hstep : appStep f st a
          = ⟨st.idx + 1,
             if f st.subs.length then st.batch ++ [a] else [],
             st.subs ++ [st.batch ++ [a]]⟩ := by
        simp [appStep, hb]
      rw [hstep]
      obtain ⟨h0, h1, h2⟩ :=
        ih ⟨st.idx + 1,
            if f st.subs.length then st.batch ++ [a] else [],
            st.subs ++ [st.batch ++ [a]]⟩
          (by by_cases hf : f st.subs.length <;> simp [hf] <;> omega)
      refine ⟨by simp at h0 ⊢; omega, by simp at h1 ⊢; omega,
        by simp at h2 ⊢; omega⟩
    · have hstep : appStep f st a
          = ⟨st.idx + 1, st.batch ++ [a], st.subs⟩ := by
        simp [appStep, hb]
      rw [hstep]
      obtain ⟨h0, h1, h2⟩ :=
        ih ⟨st.idx + 1, st.batch ++ [a], st.subs⟩ (by simp at h ⊢; omega)
      refine ⟨by simp at h0 ⊢; omega, by simp at h1 ⊢; omega,
        by simp at h2 ⊢; omega⟩

/-- app.py's `insert_data` always performs `n / 100 + 1` submissions —
the mid-loop boundary executes plus the unconditional final execute —
regardless of which submissions fail. -/
theorem appIngest_length (f : Nat → Bool) (rs : List α) :
    (appIngest f rs).length = rs.length / 100 + 1 := by
  obtain ⟨h0, h1, h2⟩ := appStep_fold_count f rs ⟨0, [], []⟩ (by simp)
  simp only [List.length_nil, Nat.zero_add, Nat.zero_div, Nat.sub_zero] at h1
  simp [appIngest, h1]

/-- The chain property of a submission list: whenever the `k`-th submission
fails (`f k = true`) and a `k+1`-th submission exists, the failed
submission's records reappear — as a prefix — in the next submission. -/
def FailChain (f : Nat → Bool) (L : List (List α)) : Prop :=
  ∀ k, f k = true → k + 1 < L.length → L.getD k [] <+: L.getD (k + 1) []

/-- Invariant of app.py's loop: because `batch.clear()` runs only when
`session.execute` succeeds, a failed submission stays in the batch, so it is
a prefix of whatever is submitted next. -/
theorem appStep_fold_chain (f : Nat → Bool) (rs : List α) :
    ∀ (st : IngestState α),
    FailChain f st.subs →
    (f (st.subs.length - 1) = true →
      st.subs.getD (st.subs.length - 1) [] <+: st.batch) →
    FailChain f (rs.foldl (appStep f) st).subs
    ∧ (f ((rs.foldl (appStep f) st).subs.length - 1) = true →
        (rs.foldl (appStep f) st).subs.getD
            ((rs.foldl (appStep f) st).subs.length - 1) []
          <+: (rs.foldl (appStep f) st).batch) := by
  induction rs with
  | nil =>
    intro st hchain hlast
    exact ⟨hchain, hlast⟩
  | cons a rs ih =>
    intro st hchain hlast
    simp only [List.foldl_cons]
    by_cases hb : (st.idx + 1) % 100 = 0
    · have hstep : appStep f st a
          = ⟨st.idx + 1,
             if f st.subs.length then st.batch ++ [a] else [],
             st.subs ++ [st.batch ++ [a]]⟩ := by
        simp [appStep, hb]
      rw [hstep]
      apply ih
      · intro k hk hklt
        simp only [List.length_append, List.length_cons, List.length_nil] at hklt
        rcases Nat.lt_or_ge (k + 1) st.subs.length with hlt | hge
        · rw [List.getD_append _ _ _ _ (by omega),
            List.getD_append _ _ _ _ hlt]
          exact hchain k hk hlt
        · have hk1 : k + 1 = st.subs.length := by omega
          have hkeq : k = st.subs.length - 1 := by omega
          rw [List.getD_append _ _ _ _ (by omega)]
          have hgetlast : (st.subs ++ [st.batch ++ [a]]).getD (k + 1) []
              = st.batch ++ [a] := by
            rw [List.getD_append_right _ _ _ _ (by omega), hk1]
            simp
          rw [hgetlast]
          rw [hkeq]
          exact (hlast (hkeq ▸ hk)).trans (List.prefix_append st.batch [a])
      · intro hf
        simp only [List.length_append, List.length_cons, List.length_nil,
          Nat.add_sub_cancel] at hf ⊢
        rw [List.getD_append_right _ _ _ _ (by omega)]
        simp only [Nat.sub_self, List.getD_cons_zero]
        rw [hf]
        exact List.prefix_rfl
    · have hstep : appStep f st a
          = ⟨st.idx + 1, st.batch ++ [a], st.subs⟩ := by
        simp [appStep, hb]
      rw [hstep]
      apply ih
      · exact hchain
      · intro hf
        exact (hlast hf).trans (List.prefix_append st.batch [a])

/-! ## Fresh-id inserts (C10) -/

/-- Inserting records whose ids are pairwise distinct and absent from the
store never overwrites: each insert appends. -/
theorem runIngest_fresh : ∀ (supply : List Nat) (rows : List Row)
    (store : List (Nat × Row)),
    supply.Nodup → (∀ i ∈ supply, i ∉ store.map Prod.fst) →
    runIngest store supply rows = store ++ supply.zip rows
  | [], rows, store, _, _ => by simp [runIngest]
  | i :: s, [], store, _, _ => by simp [runIngest]
  | i :: s, r :: rw, store, hnd, hfresh => by
    have hmem : i ∉ store.map Prod.fst := hfresh i (by simp)
    have hany : store.any (fun p => p.1 = i) = false := by
      rw [List.any_eq_false]
      intro p hp
      simp only [decide_eq_true_eq]
      intro hpi
      exact hmem (List.mem_map.mpr ⟨p, hp, hpi⟩)
    have hup : upsert store (i, r) = store ++ [(i, r)] := by
      simp [upsert, hany]
    have hrec := runIngest_fresh s rw (store ++ [(i, r)])
      (List.Nodup.of_cons hnd)
      (by
        intro j hj
        simp only [List.map_append, List.mem_append, List.map_cons,
          List.map_nil, List.mem_singleton, not_or]
        refine ⟨fun hc => hfresh j (by simp [hj]) hc, fun hc => ?_⟩
        rw [List.nodup_cons] at hnd
        exact hnd.1 (hc ▸ hj))
    calc runIngest store (i :: s) (r :: rw)
        = runIngest (store ++ [(i, r)]) s rw := by
          simp [runIngest, hup]
      _ = (store ++ [(i, r)]) ++ s.zip rw := hrec
      _ = store ++ (i :: s).zip (r :: rw) := by simp

/-! ## Claim theorems -/

/-- C1 counterexample: ingesting exactly 100 records through app.py's
`insert_data` with every submission succeeding produces 2 submissions, of
sizes 100 and 0 — not the claimed ceil(100/100) = 1 batches — because the
final `session.execute(batch)` runs unconditionally. -/
theorem C1_counterexample :
    (appIngest (fun _ => false) (List.range 100)).map List.length = [100, 0]
    ∧ (appIngest (fun _ => false) (List.range 100)).length = 2
    ∧ (100 + 100 - 1) / 100 = 1 := by
  refine ⟨by decide, by decide, by decide⟩

/-- C1 (amended): for every non-empty input of n records with every
submission succeeding, push_data.py's `insert_data` submits exactly
ceil(n/100) batches, each of size 100 except possibly the last (250 records
give sizes 100, 100, 50 in order); app.py's `insert_data` submits the same
full batches but always adds one final submission of the remaining
`n % 100` records, which is empty exactly when 100 divides n, for a total
of `n / 100 + 1` submissions. -/
theorem C1_batch_sizes (rs : List α) (hne : rs ≠ []) :
    ((pushIngest rs).map List.length
        = List.replicate (rs.length / 100) 100
          ++ (if rs.length % 100 = 0 then [] else [rs.length % 100])
      ∧ (pushIngest rs).length = (rs.length + 100 - 1) / 100)
    ∧ (appIngest (fun _ => false) rs).map List.length
        = List.replicate (rs.length / 100) 100 ++ [rs.length % 100] := by
  refine ⟨⟨pushIngest_sizes rs, ?_⟩, appIngest_sizes rs⟩
  have h := congrArg List.length (pushIngest_sizes rs)
  simp only [List.length_map, List.length_append, List.length_replicate] at h
  rw [h]
  have hpos : 0 < rs.length := List.length_pos.mpr hne
  by_cases hmod : rs.length % 100 = 0 <;> simp [hmod] <;> omega

/-- C1 witness: at 250 records both implementations submit 3 batches of
sizes 100, 100, 50 in that order, and push_data's count is ceil(250/100). -/
theorem C1_batch_sizes_witness :
    List.range 250 ≠ ([] : List Nat)
    ∧ (pushIngest (List.range 250)).map List.length = [100, 100, 50]
    ∧ (pushIngest (List.range 250)).length = 3
    ∧ (appIngest (fun _ => false) (List.range 250)).map List.length
        = [100, 100, 50] := by
  refine ⟨by decide, ?_, ?_, ?_⟩
  · rw [(C1_batch_sizes (List.range 250) (by decide)).1.1]; decide
  · rw [(C1_batch_sizes (List.range 250) (by decide)).1.2]; decide
  · rw [(C1_batch_sizes (List.range 250) (by decide)).2]; decide

/-- C2 counterexample: on empty input app.py's `insert_data` performs one
submission, and that submission is the empty batch — the claim says zero
batches are submitted and an empty batch is never submitted. -/
theorem C2_counterexample :
    appIngest (fun _ => false) ([] : List Nat) = [[]] := by
  decide

/-- C2 (amended): push_data.py's `insert_data` never submits an empty batch
(in particular, on empty input it submits zero batches), and on n a positive
multiple of 100 it performs exactly n/100 submissions with no empty trailing
one; app.py's `insert_data` submits an empty batch exactly when 100 divides
n (including n = 0), because its final `session.execute(batch)` is
unconditional. -/
theorem C2_no_empty_batch (rs : List α) :
    [] ∉ pushIngest rs
    ∧ (rs.length % 100 = 0 → (pushIngest rs).length = rs.length / 100)
    ∧ ([] ∈ appIngest (fun _ => false) rs ↔ rs.length % 100 = 0) := by
  have hpush := pushIngest_sizes rs
  have happ := appIngest_sizes rs
  refine ⟨?_, ?_, ?_, ?_⟩
  · intro hmem
    have h0 : (0 : Nat) ∈ (pushIngest rs).map List.length := by
      simpa using List.mem_map_of_mem List.length hmem
    rw [hpush] at h0
    by_cases hmod : rs.length % 100 = 0
    · simp [hmod, List.mem_replicate] at h0
    · simp [hmod, List.mem_replicate] at h0
      omega
  · intro hmod
    have h := congrArg List.length hpush
    simp only [List.length_map, List.length_append, List.length_replicate,
      hmod] at h
    simpa using h
  · intro hmem
    have h0 : (0 : Nat) ∈ (appIngest (fun _ => false) rs).map List.length := by
      simpa using List.mem_map_of_mem List.length hmem
    rw [happ] at h0
    simp [List.mem_replicate] at h0
    omega
  · intro hmod
    have h0 : (0 : Nat) ∈ (appIngest (fun _ => false) rs).map List.length := by
      rw [happ]
      simp [hmod]
    obtain ⟨b, hb, hlen⟩ := List.mem_map.mp h0
    rwa [List.length_eq_zero.mp hlen] at hb

/-- C2 witness: at n = 200 (a positive multiple of 100) push_data submits
exactly 200/100 = 2 batches, none empty, while app.py's ingest does submit
an empty batch. -/
theorem C2_no_empty_batch_witness :
    [] ∉ pushIngest (List.range 200)
    ∧ (List.range 200).length % 100 = 0
    ∧ (pushIngest (List.range 200)).length = 2
    ∧ [] ∈ appIngest (fun _ => false) (List.range 200) := by
  have h := C2_no_empty_batch (List.range 200)
  refine ⟨h.1, by decide, ?_, h.2.2.mpr (by decide)⟩
  have h2 := h.2.1 (by decide)
  simpa using h2

/-- C3 counterexample: ingest 200 records through app.py's `insert_data`
with the first `session.execute` failing and the second succeeding.  The
failed first batch (records 0–99) is not dropped: because `batch.clear()`
sits after the execute inside the `try`, all 100 of its records are
included again in the second submission, which carries records 0–199. -/
theorem C3_counterexample :
    appIngest (fun k => k == 0) (List.range 200)
      = [List.range 100, List.range 200, []]
    ∧ (0 : Nat) ∈ (appIngest (fun k => k == 0) (List.range 200)).getD 1 [] := by
  refine ⟨by decide, by decide⟩

/-- C3 (amended): a failed batch submission in app.py's `insert_data` is
caught and does not abort ingestion — every one of the `n / 100 + 1`
submissions still takes place whatever the failure pattern — but the failed
batch's records are NOT skipped: the batch is only cleared on success, so a
failed submission is a prefix of (hence entirely contained in) the next
submission. -/
theorem C3_failed_batch_retained (f : Nat → Bool) (rs : List α) (k : Nat)
    (hf : f k = true) (hlt : k + 1 < (appIngest f rs).length) :
    (appIngest f rs).length = rs.length / 100 + 1
    ∧ (appIngest f rs).getD k [] <+: (appIngest f rs).getD (k + 1) [] := by
  refine ⟨appIngest_length f rs, ?_⟩
  obtain ⟨hchain, hlast⟩ := appStep_fold_chain f rs ⟨0, [], []⟩
    (by intro k hk hklt; simp at hklt)
    (by intro hk; simp)
  set st := rs.foldl (appStep f) ⟨0, [], []⟩ with hst
  have hlen : (appIngest f rs).length = st.subs.length + 1 := by
    simp [appIngest, hst]
  rw [hlen] at hlt
  have hgetfull : ∀ m, m < st.subs.length →
      (appIngest f rs).getD m [] = st.subs.getD m [] := by
    intro m hm
    simp only [appIngest, ← hst]
    exact List.getD_append _ _ _ _ hm
  rcases Nat.lt_or_ge (k + 1) st.subs.length with hcase | hcase
  · rw [hgetfull k (by omega), hgetfull (k + 1) hcase]
    exact hchain k hf hcase
  · have hk1 : k + 1 = st.subs.length := by omega
    rw [hgetfull k (by omega)]
    have hlastget : (appIngest f rs).getD (k + 1) [] = st.batch := by
      simp only [appIngest, ← hst]
      rw [List.getD_append_right _ _ _ _ (by omega), hk1]
      simp
    rw [hlastget]
    have hkeq : k = st.subs.length - 1 := by omega
    rw [hkeq]
    exact hlast (hkeq ▸ hf)

/-- C3 witness: 200 records, first submission failing — the ingest still
performs 200/100 + 1 = 3 submissions and the failed first submission is a
prefix of the second. -/
theorem C3_failed_batch_retained_witness :
    ((fun k => k == 0) 0 = true
      ∧ 0 + 1 < (appIngest (fun k => k == 0) (List.range 200)).length)
    ∧ (appIngest (fun k => k == 0) (List.range 200)).length = 200 / 100 + 1
    ∧ (appIngest (fun k => k == 0) (List.range 200)).getD 0 []
        <+: (appIngest (fun k => k == 0) (List.range 200)).getD 1 [] := by
  refine ⟨⟨by decide, by decide⟩, ?_⟩
  have h := C3_failed_batch_retained (fun k => k == 0) (List.range 200) 0
    (by decide) (by decide)
  simpa using h

/-- C4: for every non-empty post_type, when the filtered read returns zero
matching rows the `/analyze` handler returns a 200 response whose four
averages all equal 0 — never an error and never null. -/
theorem C4_empty_match_zero_averages (pt : String)
    (q : String → Except String (List Row))
    (hpt : pt ≠ "") (hq : q pt = Except.ok []) :
    analyze (some pt) q = HttpResponse.okAggregate ⟨pt, 0, 0, 0, 0⟩
    ∧ (analyze (some pt) q).status = 200 := by
  constructor
  · simp [analyze, iterateRS, hpt, hq, avgOf]
  · simp [analyze, iterateRS, hpt, hq, HttpResponse.status]

/-- C4 witness: post_type "video" with a store read matching zero rows. -/
theorem C4_empty_match_zero_averages_witness :
    ("video" ≠ ""
      ∧ (fun _ => (Except.ok [] : Except String (List Row))) "video"
          = Except.ok [])
    ∧ analyze (some "video") (fun _ => Except.ok [])
        = HttpResponse.okAggregate ⟨"video", 0, 0, 0, 0⟩
    ∧ (analyze (some "video") (fun _ => Except.ok [])).status = 200 := by
  refine ⟨⟨by decide, rfl⟩, ?_⟩
  exact C4_empty_match_zero_averages "video" (fun _ => Except.ok [])
    (by decide) rfl

/-- C5: a `/analyze` request whose post_type parameter is missing (`none`)
or empty returns a 400 response with a JSON error body, and the response is
the same whatever the backend query would answer — the query is never
consulted. -/
theorem C5_missing_post_type_400
    (q q' : String → Except String (List Row)) :
    (analyze none q).status = 400
    ∧ (analyze none q).hasErrorKey = true
    ∧ (analyze (some "") q).status = 400
    ∧ (analyze (some "") q).hasErrorKey = true
    ∧ analyze none q = analyze none q'
    ∧ analyze (some "") q = analyze (some "") q' := by
  refine ⟨rfl, rfl, ?_, ?_, rfl, ?_⟩ <;>
    simp [analyze, HttpResponse.status, HttpResponse.hasErrorKey]

/-- C6: for a non-empty post_type, a backend exception in `/analyze` is
converted into a 500 response with an `error` key in the JSON body, and the
same catch-and-convert policy applies to `/post_types`; neither handler
lets the exception propagate (the embedded handlers are total functions
into `HttpResponse`). -/
theorem C6_backend_error_500 (pt e : String)
    (q : String → Except String (List Row))
    (hpt : pt ≠ "") (hq : q pt = Except.error e) :
    analyze (some pt) q = HttpResponse.serverError e
    ∧ (analyze (some pt) q).status = 500
    ∧ (analyze (some pt) q).hasErrorKey = true
    ∧ get_post_types (Except.error e) = HttpResponse.serverError e
    ∧ (get_post_types (Except.error e)).status = 500
    ∧ (get_post_types (Except.error e)).hasErrorKey = true := by
  have h : analyze (some pt) q = HttpResponse.serverError e := by
    simp [analyze, hpt, hq]
  refine ⟨h, by rw [h]; rfl, by rw [h]; rfl, rfl, rfl, rfl⟩

/-- C6 witness: `/analyze?post_type=carousel` with a backend that raises. -/
theorem C6_backend_error_500_witness :
    ("carousel" ≠ ""
      ∧ (fun _ => (Except.error "read failed" : Except String (List Row)))
          "carousel" = Except.error "read failed")
    ∧ analyze (some "carousel") (fun _ => Except.error "read failed")
        = HttpResponse.serverError "read failed"
    ∧ (analyze (some "carousel")
        (fun _ => Except.error "read failed")).status = 500
    ∧ (analyze (some "carousel")
        (fun _ => Except.error "read failed")).hasErrorKey = true
    ∧ get_post_types (Except.error "read failed")
        = HttpResponse.serverError "read failed"
    ∧ (get_post_types (Except.error "read failed")).status = 500
    ∧ (get_post_types (Except.error "read failed")).hasErrorKey = true := by
  refine ⟨⟨by decide, rfl⟩, ?_⟩
  have h := C6_backend_error_500 "carousel" "read failed"
    (fun _ => Except.error "read failed") (by decide) rfl
  exact ⟨h.1, h.2.1, h.2.2.1, h.2.2.2.1, h.2.2.2.2.1, h.2.2.2.2.2⟩

/-- C7: whatever the store contents — duplicates included — the
`/post_types` handler returns each distinct post_type value exactly once:
the returned list has no duplicates, has the same members as the store's
post_type column, and counts every present value exactly once. -/
theorem C7_post_types_distinct (rows : List String) :
    get_post_types (Except.ok rows) = HttpResponse.okPostTypes rows.dedup
    ∧ rows.dedup.Nodup
    ∧ (∀ s : String, s ∈ rows.dedup ↔ s ∈ rows)
    ∧ (∀ s : String, rows.dedup.count s = if s ∈ rows then 1 else 0) :=
  ⟨rfl, List.nodup_dedup rows, fun _ => List.mem_dedup,
    fun s => List.count_dedup rows s⟩

/-- C8: evaluating the handler at the failing input — post_type "video"
with two matching rows {likes 10, comments 10} and {likes 20, comments 20}.
avg_likes is indeed the true-division mean 15 (what `avgOf [10, 20]`
computes), but avg_comments, avg_shares and avg_total_engagement come out
0, not the sum-over-count 15 the claim prescribes for every average: the
`likes` comprehension exhausts the one-shot `ResultSet`, so the three later
comprehensions collect nothing and the `else 0` branch fires. -/
theorem C8_resultset_exhausted :
    analyze (some "video")
        (fun _ => Except.ok [⟨10, 10, 0, 0⟩, ⟨20, 20, 0, 0⟩])
      = HttpResponse.okAggregate ⟨"video", 15, 0, 0, 0⟩
    ∧ avgOf [10, 20] = 15
    ∧ (0 : Rat) ≠ 15 := by
  refine ⟨?_, ?_, by norm_num⟩
  · simp only [analyze, iterateRS, avgOf, List.map_cons, List.map_nil,
      List.isEmpty_cons, List.isEmpty_nil, List.sum_cons, List.sum_nil,
      List.length_cons, List.length_nil]
    norm_num
    intro h
    exact absurd h (by decide)
  · simp only [avgOf, List.isEmpty_cons, List.sum_cons, List.sum_nil,
      List.length_cons, List.length_nil]
    norm_num

/-- C9 counterexample: with no vector store configured, `analyze_post_type`
does not fail — its return value is exactly the empty list, the very value
a configured search producing zero matches returns, so the caller receives
a degraded (indistinguishable-from-success) result. -/
theorem C9_counterexample :
    (analyze_post_type none "carousel" 5).2 = []
    ∧ (analyze_post_type none "carousel" 5).2
        = (analyze_post_type
            (some (fun _ _ => Except.ok [])) "carousel" 5).2 := by
  exact ⟨rfl, rfl⟩

/-- C9 (amended): for every query and top_k, when the vector backend is not
configured `analyze_post_type` performs no search — there is no search
operation to invoke — logs the error "Vector store not initialized.", and
returns the empty list to its caller rather than raising a
"not configured" failure. -/
theorem C9_not_configured (pt : String) (top_k : Nat) :
    analyze_post_type none pt top_k
      = (["Vector store not initialized."], []) :=
  rfl

/-- C10: app.py's ingestion is not idempotent: each record receives a fresh
id at insertion time (uuid4, modelled as an id supply that is pairwise
distinct and disjoint from the store), so running `insert_data` twice on
the same rows — as two `create_app` calls do — appends every row twice
under distinct primary keys instead of overwriting, doubling the store. -/
theorem C10_double_ingest_duplicates (store : List (Nat × Row))
    (rows : List Row) (s1 s2 : List Nat)
    (hn : (s1 ++ s2).Nodup)
    (hf : ∀ i ∈ s1 ++ s2, i ∉ store.map Prod.fst)
    (hl1 : s1.length = rows.length) (hl2 : s2.length = rows.length) :
    runIngest (runIngest store s1 rows) s2 rows
      = store ++ s1.zip rows ++ s2.zip rows
    ∧ (runIngest (runIngest store s1 rows) s2 rows).length
        = store.length + 2 * rows.length
    ∧ (s1.zip rows ++ s2.zip rows).map Prod.snd = rows ++ rows
    ∧ ((s1.zip rows ++ s2.zip rows).map Prod.fst).Nodup := by
  have hnd1 : s1.Nodup := (List.nodup_append.mp hn).1
  have hnd2 : s2.Nodup := (List.nodup_append.mp hn).2.1
  have hdisj : List.Disjoint s1 s2 := List.disjoint_of_nodup_append hn
  have hfst1 : (s1.zip rows).map Prod.fst = s1 :=
    List.map_fst_zip s1 rows (le_of_eq hl1)
  have hfst2 : (s2.zip rows).map Prod.fst = s2 :=
    List.map_fst_zip s2 rows (le_of_eq hl2)
  have hsnd1 : (s1.zip rows).map Prod.snd = rows :=
    List.map_snd_zip s1 rows (ge_of_eq hl1)
  have hsnd2 : (s2.zip rows).map Prod.snd = rows :=
    List.map_snd_zip s2 rows (ge_of_eq hl2)
  have hrun1 : runIngest store s1 rows = store ++ s1.zip rows :=
    runIngest_fresh s1 rows store hnd1
      (fun i hi => hf i (List.mem_append_left s2 hi))
  have hrun2 : runIngest (store ++ s1.zip rows) s2 rows
      = (store ++ s1.zip rows) ++ s2.zip rows := by
    apply runIngest_fresh s2 rows _ hnd2
    intro i hi
    simp only [List.map_append, List.mem_append, not_or, hfst1]
    exact ⟨hf i (List.mem_append_right s1 hi), fun hc => hdisj hc hi⟩
  have heq : runIngest (runIngest store s1 rows) s2 rows
      = store ++ s1.zip rows ++ s2.zip rows := by
    rw [hrun1, hrun2]
  refine ⟨heq, ?_, ?_, ?_⟩
  · rw [heq]
    have e1 : (s1.zip rows).length = rows.length := by
      rw [List.length_zip, hl1, Nat.min_self]
    have e2 : (s2.zip rows).length = rows.length := by
      rw [List.length_zip, hl2, Nat.min_self]
    simp [e1, e2]
    omega
  · rw [List.map_append, hsnd1, hsnd2]
  · rw [List.map_append, hfst1, hfst2]
    exact hn

/-- C10 witness: an empty store, one row, and fresh distinct ids 0 and 1
for the two runs — the row is stored twice, under ids 0 and 1. -/
theorem C10_double_ingest_duplicates_witness :
    (([0] ++ [1] : List Nat).Nodup
      ∧ (∀ i ∈ ([0] ++ [1] : List Nat),
          i ∉ ([] : List (Nat × Row)).map Prod.fst)
      ∧ ([0] : List Nat).length = [(⟨1, 2, 3, 4⟩ : Row)].length
      ∧ ([1] : List Nat).length = [(⟨1, 2, 3, 4⟩ : Row)].length)
    ∧ runIngest (runIngest [] [0] [(⟨1, 2, 3, 4⟩ : Row)]) [1]
          [(⟨1, 2, 3, 4⟩ : Row)]
        = [(0, (⟨1, 2, 3, 4⟩ : Row)), (1, ⟨1, 2, 3, 4⟩)]
    ∧ (runIngest (runIngest [] [0] [(⟨1, 2, 3, 4⟩ : Row)]) [1]
          [(⟨1, 2, 3, 4⟩ : Row)]).length = 0 + 2 * 1 := by
  refine ⟨⟨by decide, by decide, by decide, by decide⟩, ?_, ?_⟩
  · have h := (C10_double_ingest_duplicates [] [(⟨1, 2, 3, 4⟩ : Row)]
      [0] [1] (by decide) (by decide) (by decide) (by decide)).1
    rw [h]
    decide
  · have h := (C10_double_ingest_duplicates [] [(⟨1, 2, 3, 4⟩ : Row)]
      [0] [1] (by decide) (by decide) (by decide) (by decide)).2.1
    simpa using h

end Instasights
